import Mathlib

/-!
A verification development for the `scholar` feedforward neural-network
library (`src/network.rs`, `src/utils.rs`, `src/dataset.rs`).

The Rust code computes with `f64`. The embedding is generic over a field `F`
standing for the exact values the program manipulates: persistence copies
values verbatim (bincode moves the 8 bytes of an `f64` unchanged), training
and evaluation are polynomial in the activation outputs, and the concrete
`Sigmoid` activation is instantiated over `ℝ`.

The provided copies of `network.rs`, `utils.rs` and `dataset.rs` end early:
the bodies of `guess`, `backpropagate`, `save`, the `Activation` trait with
`Sigmoid`, the `LoadErr` type, the tail of `test`, and the tail of
`gen_random_matrix` lie beyond the cut. Definitions for those parts are
modelled from the spec and say so in their doc comments; everything else is
translated directly from the source.
-/

namespace Scholar

/-- Dense column-major matrix, standing for nalgebra's `DMatrix<f64>`:
entry `(i, j)` is stored at `data[j * nrows + i]`. -/
structure DMatrix (F : Type) where
  nrows : Nat
  ncols : Nat
  data : List F
deriving DecidableEq

/-- `DMatrix::zeros(r, c)`. -/
def DMatrix.zeros (F : Type) [Zero F] (r c : Nat) : DMatrix F :=
  ⟨r, c, List.replicate (r * c) 0⟩

/-- Entry `(i, j)` of a column-major matrix (`0` outside the stored data). -/
def DMatrix.entry {F : Type} [Zero F] (m : DMatrix F) (i j : Nat) : F :=
  m.data.getD (j * m.nrows + i) 0

/-- Row `i` of the matrix–column-vector product `m * v`. -/
def DMatrix.mulVec {F : Type} [Field F] (m : DMatrix F) (v : List F) : List F :=
  (List.range m.nrows).map fun i =>
    ((List.range m.ncols).map fun j => m.entry i j * v.getD j 0).sum

/-- `mᵀ * v`: column `j` of `m` dotted with `v`. -/
def DMatrix.mulTransVec {F : Type} [Field F] (m : DMatrix F) (v : List F) : List F :=
  (List.range m.ncols).map fun j =>
    ((List.range m.nrows).map fun i => m.entry i j * v.getD i 0).sum

/-- A column vector as an `n × 1` matrix. -/
def colMat {F : Type} (v : List F) : DMatrix F :=
  ⟨v.length, 1, v⟩

/-- Activation kinds for the type parameter `A` of `NeuralNet<A>`. The
source's `Activation` trait is open (its definition lies beyond the cut of
`network.rs`); `sigmoid` is the implementor shipped with the library
(`scholar::Sigmoid`, used by both examples), `custom` stands for any other
implementor a caller may supply. The network stores the kind only as
`PhantomData<A>` (src/network.rs line 17), with no runtime representation,
which the phantom index of `NeuralNet` below mirrors. -/
inductive ActKind
  | sigmoid
  | custom
deriving DecidableEq

/-- `NeuralNet<A>` (src/network.rs lines 11-18): per-layer activation
vectors, weight matrices, bias vectors, and error-gradient vectors, all as
dynamically sized `f64` matrices; the activation type is a phantom. -/
structure NeuralNet (F : Type) (A : ActKind) where
  layers : List (DMatrix F)
  weights : List (DMatrix F)
  biases : List (DMatrix F)
  errors : List (DMatrix F)
deriving DecidableEq

/-- `gen_random_matrix` (src/utils.rs lines 6-9; the file is cut just after
`DMatrix::from_iterator(` — the fill is modelled from the visible head and
spec §4.1): a `rows × cols` matrix whose `rows * cols` entries are
consecutive samples of `Uniform::new_inclusive(-1.0, 1.0)`. The sampler is
the entropy oracle `rand`, consumed from position `start` on. -/
def gen_random_matrix {F : Type} (rand : Nat → F) (start rows cols : Nat) : DMatrix F :=
  ⟨rows, cols, (List.range (rows * cols)).map fun k => rand (start + k)⟩

/-- Entropy-stream position where the `i`-th weight matrix of `new` starts. -/
def wStart (node_counts : List Nat) (i : Nat) : Nat :=
  ((List.range i).map fun j => node_counts.getD (j + 1) 0 * node_counts.getD j 0).sum

/-- Entropy-stream position where the `i`-th bias vector of `new` starts. -/
def bStart (node_counts : List Nat) (i : Nat) : Nat :=
  wStart node_counts (node_counts.length - 1) +
    ((List.range i).map fun j => node_counts.getD (j + 1) 0).sum

/-- `NeuralNet::new` (src/network.rs lines 40-66): panics (`none`) when fewer
than 2 layers are supplied, before any network state exists; otherwise builds
zero layer activations of shape `counts[i] × 1`, random weight matrices of
shape `counts[i+1] × counts[i]`, random bias vectors of shape
`counts[i+1] × 1`, and zero error vectors of shape `counts[i+1] × 1`. -/
def new (F : Type) [Field F] (A : ActKind) (rand : Nat → F) (node_counts : List Nat) :
    Option (NeuralNet F A) :=
  if node_counts.length < 2 then none
  else some
    { layers := node_counts.map fun c => DMatrix.zeros F c 1
      weights := (List.range (node_counts.length - 1)).map fun i =>
        gen_random_matrix rand (wStart node_counts i)
          (node_counts.getD (i + 1) 0) (node_counts.getD i 0)
      biases := (List.range (node_counts.length - 1)).map fun i =>
        gen_random_matrix rand (bStart node_counts i) (node_counts.getD (i + 1) 0) 1
      errors := (List.range (node_counts.length - 1)).map fun i =>
        DMatrix.zeros F (node_counts.getD (i + 1) 0) 1 }

/-- One layer of forward propagation: `activation(w * a + b)` elementwise. -/
def applyLayer {F : Type} [Field F] (σ : F → F) (w b : DMatrix F) (a : List F) : List F :=
  (List.zipWith (fun x y => x + y) (w.mulVec a) b.data).map σ

/-- Modelled from the spec: the body of `NeuralNet::guess` (predict) lies
beyond the cut of `network.rs` (it is called at lines 115 and 146). Spec
§4.2: `layer_activations[0]` is the input; each subsequent layer is
`activation(weights[i-1] * layer_activations[i-1] + biases[i-1])`. This
returns the list of all per-layer activations, input first. -/
def forwardActs {F : Type} [Field F] (σ : F → F) :
    List (DMatrix F) → List (DMatrix F) → List F → List (List F)
  | w :: ws, b :: bs, a => a :: forwardActs σ ws bs (applyLayer σ w b a)
  | _, _, a => [a]

variable {F : Type} {A : ActKind}

/-- Modelled from the spec (§4.2): `NeuralNet::guess` overwrites every layer
activation (retained for the subsequent backpropagation call) and returns a
copy of the final layer's activation. -/
def guess [Field F] (σ : F → F) (net : NeuralNet F A) (inputs : List F) :
    NeuralNet F A × List F :=
  let acts := forwardActs σ net.weights net.biases inputs
  ({ net with layers := acts.map colMat }, acts.getLastD [])

/-- The prediction alone, as a function of weights, biases and input. -/
def guessOut [Field F] (σ : F → F) (net : NeuralNet F A) (inputs : List F) : List F :=
  (forwardActs σ net.weights net.biases inputs).getLastD []

/-- Modelled from the spec (§4.3 steps 1-2): the backpropagated error vectors,
last layer first element. `top` is the output-layer error; walking backward,
`errors[i] = (weights[i+1]ᵀ * errors[i+1]) ⊙ deriv(layer_activations[i+1])`.
Arguments: the weight matrices from connection `i` on, and the activations
from layer `i+1` on. -/
def backErrs [Field F] (dact : F → F) (top : List F) :
    List (DMatrix F) → List (List F) → List (List F)
  | _ :: ws@(_ :: _), a :: rest =>
    let es := backErrs dact top ws rest
    (List.zipWith (fun x y => x * y)
      ((ws.headD (colMat [])).mulTransVec (es.headD [])) (a.map dact)) :: es
  | _ :: _, _ => [top]
  | [], _ => []

/-- Outer product `e * aᵀ` as an `e.length × a.length` column-major matrix. -/
def outer [Field F] (e a : List F) : DMatrix F :=
  ⟨e.length, a.length, (List.range (e.length * a.length)).map fun k =>
    e.getD (k % e.length) 0 * a.getD (k / e.length) 0⟩

/-- `m - lr * u`, entrywise on the stored data. -/
def updateMat [Field F] (lr : F) (m u : DMatrix F) : DMatrix F :=
  ⟨m.nrows, m.ncols, List.zipWith (fun x y => x - lr * y) m.data u.data⟩

/-- Three-way `zipWith`, for the per-connection weight update. -/
def zipWith3 {α β γ δ : Type} (f : α → β → γ → δ) : List α → List β → List γ → List δ
  | a :: l₁, b :: l₂, c :: l₃ => f a b c :: zipWith3 f l₁ l₂ l₃
  | _, _, _ => []

/-- Modelled from the spec: the body of `NeuralNet::backpropagate` lies
beyond the cut of `network.rs` (it is called at line 116). Spec §4.3:
output-layer error `(prediction − target) ⊙ deriv(prediction)` with the
derivative taken of the activation's own output; earlier errors via
`backErrs`; then `weights[i] -= lr * (errors[i] * layer_activations[i]ᵀ)`
and `biases[i] -= lr * errors[i]`, storing the errors in the network. -/
def backpropagate [Field F] (dact : F → F) (lr : F) (net : NeuralNet F A)
    (guesses targets : List F) : NeuralNet F A :=
  let acts := net.layers.map DMatrix.data
  let top := List.zipWith (fun p t => (p - t) * dact p) guesses targets
  let es := backErrs dact top net.weights (acts.drop 1)
  { net with
    weights := zipWith3 (fun w e a => updateMat lr w (outer e a)) net.weights es acts
    biases := List.zipWith (fun b e => updateMat lr b (colMat e)) net.biases es
    errors := es.map colMat }

/-- The training-loop body for one example (src/network.rs lines 114-117):
predict, then backpropagate-and-update. -/
def trainExample [Field F] (σ dact : F → F) (lr : F) (net : NeuralNet F A)
    (row : List F × List F) : NeuralNet F A :=
  let g := guess σ net row.1
  backpropagate dact lr g.1 g.2 row.2

/-- One full pass over the dataset in its current order. -/
def datasetPass [Field F] (σ dact : F → F) (lr : F)
    (rows : List (List F × List F)) (net : NeuralNet F A) : NeuralNet F A :=
  rows.foldl (trainExample σ dact lr) net

/-- The arithmetic panic of `i % percentile` when `percentile = 0`: the Rust
remainder operator by zero always panics. -/
inductive TrainPanic
  | remZero
deriving DecidableEq

/-- The loop of `NeuralNet::train` (src/network.rs lines 112-122). Each
iteration shuffles the dataset in place (`shuffle` is the random-permutation
oracle of `Dataset::shuffle`, indexed by the loop counter; the shuffled rows
are threaded to the next iteration, as the source shuffles in place), runs a
full pass, then evaluates `i % percentile` — which panics when
`percentile = 0`. The progress bar itself has no numeric effect. The result
carries the number of completed passes alongside the final network. -/
def trainGo [Field F] (σ dact : F → F) (lr : F)
    (shuffle : Nat → List (List F × List F) → List (List F × List F))
    (percentile : Nat) :
    Nat → Nat → List (List F × List F) → NeuralNet F A → Nat →
      Except TrainPanic (NeuralNet F A × Nat)
  | 0, _, _, net, passes => .ok (net, passes)
  | fuel + 1, i, rows, net, passes =>
    let rows' := shuffle i rows
    let net' := datasetPass σ dact lr rows' net
    if percentile = 0 then .error .remZero
    else trainGo σ dact lr shuffle percentile fuel (i + 1) rows' net' (passes + 1)

/-- `NeuralNet::train` (src/network.rs lines 100-125): `percentile =
iterations / 100`; `for i in 1..iterations` runs `iterations - 1` loop
bodies. -/
def train [Field F] (σ dact : F → F)
    (shuffle : Nat → List (List F × List F) → List (List F × List F))
    (net : NeuralNet F A) (rows : List (List F × List F)) (iterations : Nat)
    (lr : F) : Except TrainPanic (NeuralNet F A × Nat) :=
  trainGo σ dact lr shuffle (iterations / 100) (iterations - 1) 1 rows net 0

/-- The loop body of `NeuralNet::test` (src/network.rs lines 145-151; the
provided file ends inside the cost computation — its tail is modelled from
the spec §4.5): predict, sum the squared differences against the targets,
and accumulate that sum divided by the number of output components. -/
def testStep [Field F] (σ : F → F) (acc : NeuralNet F A × F)
    (row : List F × List F) : NeuralNet F A × F :=
  let g := guess σ acc.1 row.1
  let costSum := (List.zipWith (fun x y => (x - y) ^ 2) g.2 row.2).sum
  (g.1, acc.2 + costSum / (g.2.length : F))

/-- `NeuralNet::test` (src/network.rs lines 143-151 and spec §4.5): fold the
per-example costs over the dataset and divide by the number of examples.
`test` takes `&mut self` and calls `guess`, so the network it leaves behind
is returned as well. -/
def test [Field F] (σ : F → F) (net : NeuralNet F A)
    (rows : List (List F × List F)) : NeuralNet F A × F :=
  let r := rows.foldl (testStep σ) (net, 0)
  (r.1, r.2 / (rows.length : F))

/-- Written from the spec's words (§4.5): the per-example cost, the mean of
`(guess − target)²` across output components, predicted with the given
network's weights and biases. -/
def exampleCost [Field F] (σ : F → F) (net : NeuralNet F A)
    (row : List F × List F) : F :=
  (List.zipWith (fun x y => (x - y) ^ 2) (guessOut σ net row.1) row.2).sum /
    ((guessOut σ net row.1).length : F)

/-- Written from the spec's words (§4.5), for comparison with `test`: the
mean over all examples of the per-example mean of `(guess − target)²` across
output components, every prediction made with the network's (unchanging)
weights and biases. -/
def specAvgCost [Field F] (σ : F → F) (net : NeuralNet F A)
    (rows : List (List F × List F)) : F :=
  (rows.map (exampleCost σ net)).sum / (rows.length : F)

/-- One token of the bincode byte stream, at the granularity the claims need:
a `u64` length/dimension, or the 8 verbatim bytes of one `f64` payload value
(kept abstract in `F`, so that a round trip is value identity). -/
inductive Tok (F : Type)
  | nat (n : Nat)
  | flo (x : F)
deriving DecidableEq

/-- The bincode encoding of one `DMatrix<f64>` (nalgebra's serde
implementation): number of rows, number of columns, then the backing
`Vec<f64>` as its length followed by the column-major elements. -/
def encodeMat (m : DMatrix F) : List (Tok F) :=
  .nat m.nrows :: .nat m.ncols :: .nat m.data.length :: m.data.map .flo

/-- The bincode encoding of a `Vec<DMatrix<f64>>`: its length, then each
matrix in order. -/
def encodeMats (l : List (DMatrix F)) : List (Tok F) :=
  .nat l.length :: (l.map encodeMat).flatten

/-- Modelled from the spec (§4.6) and the derived `Serialize` on the struct
(src/network.rs lines 11-18): the body of `NeuralNet::save` lies beyond the
cut of `network.rs`. The derive serializes the five fields in declaration
order — `layers`, `weights`, `biases`, `errors`, and `activation :
PhantomData<A>`, which serde treats as a unit struct so bincode writes
nothing for it: the encoding carries no activation-kind information. -/
def encodeNet (net : NeuralNet F A) : List (Tok F) :=
  encodeMats net.layers ++ encodeMats net.weights ++
    encodeMats net.biases ++ encodeMats net.errors

/-- Read one `u64` token. -/
def readNat : List (Tok F) → Option (Nat × List (Tok F))
  | .nat n :: rest => some (n, rest)
  | _ => none

/-- Read `k` consecutive `f64` tokens. -/
def readFlos : Nat → List (Tok F) → Option (List F × List (Tok F))
  | 0, rest => some ([], rest)
  | k + 1, .flo x :: rest =>
    (readFlos k rest).map fun p => (x :: p.1, p.2)
  | _ + 1, _ => none

/-- Decode one matrix: rows, columns, element count — which nalgebra checks
against `rows * cols` — then the elements. -/
def readMat (toks : List (Tok F)) : Option (DMatrix F × List (Tok F)) :=
  (readNat toks).bind fun p1 =>
    (readNat p1.2).bind fun p2 =>
      (readNat p2.2).bind fun p3 =>
        if p3.1 = p1.1 * p2.1 then
          (readFlos p3.1 p3.2).map fun q => (⟨p1.1, p2.1, q.1⟩, q.2)
        else none

/-- Decode `k` consecutive matrices. -/
def readMats : Nat → List (Tok F) → Option (List (DMatrix F) × List (Tok F))
  | 0, rest => some ([], rest)
  | k + 1, toks =>
    (readMat toks).bind fun p =>
      (readMats k p.2).bind fun q => some (p.1 :: q.1, q.2)

/-- Decode a `Vec<DMatrix<f64>>`: its length, then that many matrices. -/
def readMatVec (toks : List (Tok F)) : Option (List (DMatrix F) × List (Tok F)) :=
  (readNat toks).bind fun p => readMats p.1 p.2

/-- Decode a whole `NeuralNet<B>` for any requested activation kind `B`:
the four serialized fields in order. `PhantomData<B>` deserializes as a unit
struct, consuming nothing — the stream is not consulted about `B`. -/
def decodeNetAux (B : ActKind) (toks : List (Tok F)) :
    Option (NeuralNet F B × List (Tok F)) :=
  (readMatVec toks).bind fun p1 =>
    (readMatVec p1.2).bind fun p2 =>
      (readMatVec p2.2).bind fun p3 =>
        (readMatVec p3.2).bind fun p4 =>
          some (⟨p1.1, p2.1, p3.1, p4.1⟩, p4.2)

/-- `bincode::deserialize_from` (src/network.rs line 80): reads exactly the
tokens the value needs and ignores anything after them; any shortfall or
mismatch is a decode error (`none`). -/
def decodeNet (B : ActKind) (toks : List (Tok F)) : Option (NeuralNet F B) :=
  (decodeNetAux B toks).map Prod.fst

/-- Modelled from the spec (§7 (d),(e)): the `LoadErr` returned by
`NeuralNet::from_file` lies beyond the cut of `network.rs`; both `?`
operators at lines 79-80 convert into it, one from `std::io::Error`, one
from the bincode decode error, as distinct variants. -/
inductive LoadErr
  | io
  | decode
deriving DecidableEq

/-- What the filesystem hands `from_file`: no file at the path, or a file
whose bytes scan into the given token stream. -/
inductive FileInput (F : Type)
  | missing
  | present (toks : List (Tok F))

/-- `NeuralNet::from_file` (src/network.rs lines 78-83): `fs::File::open`
failure propagates as the I/O variant; then `bincode::deserialize_from`
either produces the decoded network or propagates the decode variant. Total
by construction — no input makes it panic. -/
def from_file (B : ActKind) : FileInput F → Except LoadErr (NeuralNet F B)
  | .missing => .error .io
  | .present toks =>
    match decodeNet B toks with
    | some net => .ok net
    | none => .error .decode

/-- `data.length = nrows * ncols`: every matrix nalgebra actually builds
satisfies this. -/
def DMatrix.WF (m : DMatrix F) : Prop :=
  m.data.length = m.nrows * m.ncols

/-- All four matrix lists of the network are well-formed in the
`DMatrix.WF` sense. -/
def NeuralNet.WF (net : NeuralNet F A) : Prop :=
  (∀ m ∈ net.layers, m.WF) ∧ (∀ m ∈ net.weights, m.WF) ∧
    (∀ m ∈ net.biases, m.WF) ∧ (∀ m ∈ net.errors, m.WF)

instance (m : DMatrix F) : Decidable m.WF := by
  unfold DMatrix.WF; infer_instance

instance (net : NeuralNet F A) : Decidable net.WF := by
  unfold NeuralNet.WF; exact instDecidableAnd

/-- Outcome of `Dataset::from_csv` on a file the csv reader scans into
records: the whole parse fails with `ParseCsvError` (a malformed numeric
field), the process panics (`Vec::split_off` out of bounds), or the rows are
produced. -/
inductive CsvResult (F : Type)
  | parseErr
  | panicked
  | ok (rows : List (List F × List F))
deriving DecidableEq

/-- Parse every field of one record, failing on the first malformed one —
the `collect::<Result<Vec<_>, _>>()` over `f64::from_str` of each trimmed
field (src/dataset.rs lines 61-67). `parseNum` is the collaborator
`str::parse`, already composed with `trim`. -/
def parseRecord (parseNum : String → Option F) : List String → Option (List F)
  | [] => some []
  | v :: rest => do
    let x ← parseNum v
    let xs ← parseRecord parseNum rest
    some (x :: xs)

/-- `Dataset::from_csv`, record-processing part (src/dataset.rs lines
56-75), applied to the records the csv reader yields. Per record: parse all
fields (any failure aborts the whole parse with `ParseCsvError`), then
`inputs.split_off(num_inputs)` — which panics when `num_inputs` exceeds the
record's length, and otherwise leaves the first `num_inputs` values as
inputs and returns the rest as outputs. -/
def from_csv (parseNum : String → Option F) (num_inputs : Nat) :
    List (List String) → CsvResult F
  | [] => .ok []
  | rec :: rest =>
    match parseRecord parseNum rec with
    | none => .parseErr
    | some vals =>
      if num_inputs ≤ vals.length then
        match from_csv parseNum num_inputs rest with
        | .ok rows => .ok ((vals.take num_inputs, vals.drop num_inputs) :: rows)
        | .parseErr => .parseErr
        | .panicked => .panicked
      else .panicked

/-- Modelled from the spec (§4.7): the `Sigmoid` activation shipped with the
library, `y = 1 / (1 + e^(−x))`; its definition lies beyond the cut of
`network.rs`. -/
noncomputable def Sigmoid (x : ℝ) : ℝ :=
  1 / (1 + Real.exp (-x))

/-- Modelled from the spec (§4.7): Sigmoid's derivative in terms of its own
output, `dy = y * (1 − y)`. -/
def SigmoidDeriv (y : ℝ) : ℝ :=
  y * (1 - y)

/-- Reinterpret a network at a different activation-kind type parameter:
the runtime fields are untouched (the kind is only a phantom). -/
def NeuralNet.recast (net : NeuralNet F A) (B : ActKind) : NeuralNet F B :=
  ⟨net.layers, net.weights, net.biases, net.errors⟩

/-- A concrete, shape-consistent `[1, 1]` sigmoid network over `ℚ`, used to
instantiate hypotheses at concrete inputs. -/
def sampleNet : NeuralNet ℚ .sigmoid :=
  ⟨[colMat [0], colMat [0]], [⟨1, 1, [3 / 2]⟩], [⟨1, 1, [-1 / 2]⟩], [⟨1, 1, [0]⟩]⟩

/-- `l.getD i d` through a `map` over `range`. -/
theorem getD_map_range {α : Type} (f : Nat → α) {n i : Nat} (h : i < n) (d : α) :
    ((List.range n).map f).getD i d = f i := by
  simp [List.getD_eq_getElem?_getD, List.getElem?_map, List.getElem?_range, h]

/-- C1: the claim says `NeuralNet::train` performs exactly `iterations` full
passes; the loop `for i in 1..iterations` (src/network.rs line 112) performs
`iterations - 1`. At the requested count `1` it performs none at all: the
network is returned untouched with zero completed passes, for every dataset,
learning rate, activation and shuffle. -/
theorem train_one_iteration_runs_no_pass [Field F] (σ dact : F → F)
    (shuffle : Nat → List (List F × List F) → List (List F × List F))
    (net : NeuralNet F A) (rows : List (List F × List F)) (lr : F) :
    train σ dact shuffle net rows 1 lr = .ok (net, 0) :=
  rfl

/-- C3: the claim says the progress-reporting bookkeeping never causes
`train` to fail or abort, including iteration counts below 100. But
`percentile = iterations / 100` (src/network.rs line 110) is `0` whenever
`iterations < 100`, and the first loop iteration then evaluates `i % 0`
(line 119), which panics. Shown here at the requested count `2` on the empty
dataset: the very first iteration aborts, for every activation, shuffle,
network and learning rate. -/
theorem train_two_iterations_panics_by_zero_rem [Field F] (σ dact : F → F)
    (shuffle : Nat → List (List F × List F) → List (List F × List F))
    (net : NeuralNet F A) (lr : F) :
    train σ dact shuffle net [] 2 lr = .error .remZero :=
  rfl

/-- C7: `NeuralNet::new` (src/network.rs lines 40-47) panics exactly on
topologies with fewer than 2 layers — the panic fires before any network
state is built, so no network value exists (`none`) — and every topology of
length at least 2 yields a network. -/
theorem new_none_iff_short_topology [Field F] (B : ActKind) (rand : Nat → F)
    (node_counts : List Nat) :
    new F B rand node_counts = none ↔ node_counts.length < 2 := by
  by_cases h : node_counts.length < 2 <;> simp [new, h]

/-- C10: a CSV whose single record is the single numeric field `"1.0"`, read
with `num_inputs = 2`: every field parses as a number, yet
`inputs.split_off(num_inputs)` (src/dataset.rs line 71) is out of bounds and
panics instead of producing a `ParseCsvError`. -/
theorem from_csv_short_record_panics (parseNum : String → Option ℚ) (x : ℚ)
    (h : parseNum "1.0" = some x) :
    from_csv parseNum 2 [["1.0"]] = .panicked := by
  simp [from_csv, parseRecord, h]

/-- C10 witness: the panic at the concrete parser that reads `"1.0"` as `1`. -/
theorem from_csv_short_record_panics_witness :
    (fun s => if s = "1.0" then some (1 : ℚ) else none) "1.0" = some 1 ∧
      from_csv (fun s => if s = "1.0" then some (1 : ℚ) else none) 2 [["1.0"]] =
        .panicked :=
  ⟨by simp, from_csv_short_record_panics (fun s => if s = "1.0" then some 1 else none)
    1 (by simp)⟩

/-- C8: for every topology of length ≥ 2 with all sizes ≥ 1 and every
entropy stream confined to `[-1, 1]` (the support of
`Uniform::new_inclusive(-1.0, 1.0)`, src/utils.rs line 8), `NeuralNet::new`
returns a network with exactly `layers - 1` weight matrices and bias
vectors, `weights[i]` of shape `counts[i+1] × counts[i]`, `biases[i]` of
shape `counts[i+1] × 1`, every weight and bias entry in `[-1, 1]`, and zero
layer-activation and error-gradient vectors of matching shapes. -/
theorem new_valid_topology_shapes {F : Type} [LinearOrderedField F] (B : ActKind)
    (rand : Nat → F) (node_counts : List Nat)
    (hlen : 2 ≤ node_counts.length)
    (_hpos : ∀ c ∈ node_counts, 1 ≤ c)
    (hrand : ∀ n, -1 ≤ rand n ∧ rand n ≤ 1) :
    ∃ net : NeuralNet F B,
      new F B rand node_counts = some net ∧
      net.weights.length = node_counts.length - 1 ∧
      net.biases.length = node_counts.length - 1 ∧
      (∀ i, i < node_counts.length - 1 →
        (net.weights.getD i ⟨0, 0, []⟩).nrows = node_counts.getD (i + 1) 0 ∧
        (net.weights.getD i ⟨0, 0, []⟩).ncols = node_counts.getD i 0 ∧
        (net.biases.getD i ⟨0, 0, []⟩).nrows = node_counts.getD (i + 1) 0 ∧
        (net.biases.getD i ⟨0, 0, []⟩).ncols = 1) ∧
      (∀ m ∈ net.weights, ∀ x ∈ m.data, -1 ≤ x ∧ x ≤ 1) ∧
      (∀ m ∈ net.biases, ∀ x ∈ m.data, -1 ≤ x ∧ x ≤ 1) ∧
      net.layers = node_counts.map (fun c => DMatrix.zeros F c 1) ∧
      net.errors = (List.range (node_counts.length - 1)).map
        (fun i => DMatrix.zeros F (node_counts.getD (i + 1) 0) 1) := by
  have hnot : ¬ node_counts.length < 2 := by omega
  unfold new
  rw [if_neg hnot]
  refine ⟨_, rfl, by simp, by simp, ?_, ?_, ?_, rfl, rfl⟩
  · intro i hi
    refine ⟨?_, ?_, ?_, ?_⟩ <;>
      simp only [getD_map_range _ hi, gen_random_matrix]
  · intro m hm x hx
    simp only [List.mem_map, List.mem_range] at hm
    obtain ⟨i, hi, rfl⟩ := hm
    simp only [gen_random_matrix, List.mem_map, List.mem_range] at hx
    obtain ⟨k, hk, rfl⟩ := hx
    exact hrand _
  · intro m hm x hx
    simp only [List.mem_map, List.mem_range] at hm
    obtain ⟨i, hi, rfl⟩ := hm
    simp only [gen_random_matrix, List.mem_map, List.mem_range] at hx
    obtain ⟨k, hk, rfl⟩ := hx
    exact hrand _

/-- C8 witness: the topology `[2, 1]` with the all-zero entropy stream. -/
theorem new_valid_topology_shapes_witness :
    ∃ net : NeuralNet ℚ .sigmoid,
      new ℚ .sigmoid (fun _ => 0) [2, 1] = some net ∧
      net.weights.length = ([2, 1] : List Nat).length - 1 ∧
      net.biases.length = ([2, 1] : List Nat).length - 1 ∧
      (∀ i, i < ([2, 1] : List Nat).length - 1 →
        (net.weights.getD i ⟨0, 0, []⟩).nrows = ([2, 1] : List Nat).getD (i + 1) 0 ∧
        (net.weights.getD i ⟨0, 0, []⟩).ncols = ([2, 1] : List Nat).getD i 0 ∧
        (net.biases.getD i ⟨0, 0, []⟩).nrows = ([2, 1] : List Nat).getD (i + 1) 0 ∧
        (net.biases.getD i ⟨0, 0, []⟩).ncols = 1) ∧
      (∀ m ∈ net.weights, ∀ x ∈ m.data, -1 ≤ x ∧ x ≤ 1) ∧
      (∀ m ∈ net.biases, ∀ x ∈ m.data, -1 ≤ x ∧ x ≤ 1) ∧
      net.layers = ([2, 1] : List Nat).map (fun c => DMatrix.zeros ℚ c 1) ∧
      net.errors = (List.range (([2, 1] : List Nat).length - 1)).map
        (fun i => DMatrix.zeros ℚ (([2, 1] : List Nat).getD (i + 1) 0) 1) :=
  new_valid_topology_shapes .sigmoid (fun _ => 0) [2, 1] (by decide)
    (by decide) (fun n => by norm_num)

/-- `readFlos` consumes exactly the encoded payload values. -/
theorem readFlos_encode (xs : List F) (rest : List (Tok F)) :
    readFlos xs.length (xs.map .flo ++ rest) = some (xs, rest) := by
  induction xs with
  | nil => rfl
  | cons x xs ih => simp [readFlos, ih]

/-- `readMat` decodes an encoded well-formed matrix and leaves the rest. -/
theorem readMat_encode {m : DMatrix F} (h : m.WF) (rest : List (Tok F)) :
    readMat (encodeMat m ++ rest) = some (m, rest) := by
  have h' : m.data.length = m.nrows * m.ncols := h
  simp only [encodeMat, List.cons_append, readMat, readNat, Option.some_bind]
  rw [if_pos h', readFlos_encode]
  rfl

/-- `readMats` decodes a list of encoded well-formed matrices. -/
theorem readMats_encode {l : List (DMatrix F)} (h : ∀ m ∈ l, m.WF)
    (rest : List (Tok F)) :
    readMats l.length ((l.map encodeMat).flatten ++ rest) = some (l, rest) := by
  induction l generalizing rest with
  | nil => rfl
  | cons m ms ih =>
    simp only [List.map_cons, List.flatten_cons, List.append_assoc, List.length_cons]
    rw [readMats, readMat_encode (h m (by simp))]
    simp [ih (fun m hm => h m (by simp [hm]))]

/-- `readMatVec` decodes an encoded `Vec` of well-formed matrices. -/
theorem readMatVec_encode {l : List (DMatrix F)} (h : ∀ m ∈ l, m.WF)
    (rest : List (Tok F)) :
    readMatVec (encodeMats l ++ rest) = some (l, rest) := by
  simp [encodeMats, readMatVec, readNat, readMats_encode h]

/-- Decoding an encoded well-formed network (at any requested kind `B`)
recovers exactly the runtime fields that were saved. -/
theorem decodeNetAux_encode {net : NeuralNet F A} (B : ActKind) (h : net.WF)
    (rest : List (Tok F)) :
    decodeNetAux B (encodeNet net ++ rest) = some (net.recast B, rest) := by
  obtain ⟨h1, h2, h3, h4⟩ := h
  simp [encodeNet, decodeNetAux, List.append_assoc, NeuralNet.recast,
    readMatVec_encode h1, readMatVec_encode h2, readMatVec_encode h3,
    readMatVec_encode h4]

/-- A successful `readNat` is unaffected by tokens appended at the end. -/
theorem readNat_ext {toks : List (Tok F)} {n : Nat} {rest : List (Tok F)}
    (h : readNat toks = some (n, rest)) (ext : List (Tok F)) :
    readNat (toks ++ ext) = some (n, rest ++ ext) := by
  cases toks with
  | nil => simp [readNat] at h
  | cons t ts => cases t <;> simp_all [readNat]

/-- A successful `readFlos` is unaffected by tokens appended at the end. -/
theorem readFlos_ext {k : Nat} {toks : List (Tok F)} {xs : List F}
    {rest : List (Tok F)} (h : readFlos k toks = some (xs, rest))
    (ext : List (Tok F)) :
    readFlos k (toks ++ ext) = some (xs, rest ++ ext) := by
  induction k generalizing toks xs with
  | zero =>
    simp only [readFlos, Option.some_inj] at h
    obtain ⟨rfl, rfl⟩ := Prod.mk.injEq .. ▸ h
    rfl
  | succ k ih =>
    cases toks with
    | nil => simp [readFlos] at h
    | cons t ts =>
      cases t with
      | nat m => simp [readFlos] at h
      | flo x =>
        simp only [readFlos, Option.map_eq_some', List.cons_append] at h ⊢
        obtain ⟨⟨ys, r⟩, h2, h3⟩ := h
        obtain ⟨rfl, rfl⟩ := Prod.mk.injEq .. ▸ h3
        exact ⟨(ys, r ++ ext), ih h2, rfl⟩

/-- A successful `readMat` is unaffected by tokens appended at the end. -/
theorem readMat_ext {toks : List (Tok F)} {m : DMatrix F} {rest : List (Tok F)}
    (h : readMat toks = some (m, rest)) (ext : List (Tok F)) :
    readMat (toks ++ ext) = some (m, rest ++ ext) := by
  unfold readMat at h ⊢
  simp only [Option.bind_eq_some] at h
  obtain ⟨⟨r, t1⟩, h1, h⟩ := h
  obtain ⟨⟨c, t2⟩, h2, h⟩ := h
  obtain ⟨⟨len, t3⟩, h3, h⟩ := h
  simp only [Option.bind_eq_some]
  refine ⟨(r, t1 ++ ext), readNat_ext h1 ext, (c, t2 ++ ext), readNat_ext h2 ext,
    (len, t3 ++ ext), readNat_ext h3 ext, ?_⟩
  split at h
  · simp only [Option.map_eq_some'] at h
    obtain ⟨⟨xs, t4⟩, h4, h5⟩ := h
    obtain ⟨rfl, rfl⟩ := Prod.mk.injEq .. ▸ h5
    simp only [if_pos ‹len = r * c›, Option.map_eq_some']
    exact ⟨(xs, t4 ++ ext), readFlos_ext h4 ext, rfl⟩
  · exact absurd h (by simp)

/-- A successful `readMats` is unaffected by tokens appended at the end. -/
theorem readMats_ext {k : Nat} {toks : List (Tok F)} {ms : List (DMatrix F)}
    {rest : List (Tok F)} (h : readMats k toks = some (ms, rest))
    (ext : List (Tok F)) :
    readMats k (toks ++ ext) = some (ms, rest ++ ext) := by
  induction k generalizing toks ms with
  | zero =>
    simp only [readMats, Option.some_inj] at h
    obtain ⟨rfl, rfl⟩ := Prod.mk.injEq .. ▸ h
    rfl
  | succ k ih =>
    simp only [readMats, Option.bind_eq_some] at h ⊢
    obtain ⟨⟨m, t1⟩, h1, h⟩ := h
    obtain ⟨⟨ms2, t2⟩, h2, h3⟩ := h
    obtain ⟨rfl, rfl⟩ := Prod.mk.injEq .. ▸ Option.some_inj.mp h3
    exact ⟨(m, t1 ++ ext), readMat_ext h1 ext, (ms2, t2 ++ ext), ih h2, rfl⟩

/-- A successful `readMatVec` is unaffected by tokens appended at the end. -/
theorem readMatVec_ext {toks : List (Tok F)} {ms : List (DMatrix F)}
    {rest : List (Tok F)} (h : readMatVec toks = some (ms, rest))
    (ext : List (Tok F)) :
    readMatVec (toks ++ ext) = some (ms, rest ++ ext) := by
  unfold readMatVec at h ⊢
  simp only [Option.bind_eq_some] at h ⊢
  obtain ⟨⟨n, t1⟩, h1, h2⟩ := h
  exact ⟨(n, t1 ++ ext), readNat_ext h1 ext, readMats_ext h2 ext⟩

/-- A successful whole-network decode is unaffected by appended tokens. -/
theorem decodeNetAux_ext {B : ActKind} {toks : List (Tok F)}
    {net : NeuralNet F B} {rest : List (Tok F)}
    (h : decodeNetAux B toks = some (net, rest)) (ext : List (Tok F)) :
    decodeNetAux B (toks ++ ext) = some (net, rest ++ ext) := by
  unfold decodeNetAux at h ⊢
  simp only [Option.bind_eq_some] at h ⊢
  obtain ⟨⟨ls, t1⟩, h1, h⟩ := h
  obtain ⟨⟨ws, t2⟩, h2, h⟩ := h
  obtain ⟨⟨bs, t3⟩, h3, h⟩ := h
  obtain ⟨⟨es, t4⟩, h4, h5⟩ := h
  obtain ⟨rfl, rfl⟩ := Prod.mk.injEq .. ▸ Option.some_inj.mp h5
  exact ⟨(ls, t1 ++ ext), readMatVec_ext h1 ext, (ws, t2 ++ ext),
    readMatVec_ext h2 ext, (bs, t3 ++ ext), readMatVec_ext h3 ext,
    (es, t4 ++ ext), readMatVec_ext h4 ext, rfl⟩

/-- Whole-stream decode of an encoded well-formed network, at any kind. -/
theorem decodeNet_encode {net : NeuralNet F A} (B : ActKind) (h : net.WF) :
    decodeNet B (encodeNet net) = some (net.recast B) := by
  unfold decodeNet
  rw [← List.append_nil (encodeNet net), decodeNetAux_encode B h]
  rfl

/-- C2 counterexample: the claim says a load with a different activation-kind
type parameter fails with a decode error. Saving the concrete sigmoid network
`sampleNet` and loading it as `NeuralNet<custom>` succeeds silently, with the
saved fields intact: the `PhantomData` field writes no discriminator. -/
theorem wrong_kind_load_accepted :
    from_file .custom (.present (encodeNet sampleNet)) =
        .ok (sampleNet.recast .custom) ∧
      from_file .custom (.present (encodeNet sampleNet)) ≠
        .error LoadErr.decode := by
  have h1 : from_file .custom (.present (encodeNet sampleNet)) =
      .ok (sampleNet.recast .custom) := rfl
  exact ⟨h1, by simp [h1]⟩

/-- C2 amended: the saved encoding contains no activation-kind discriminator;
loading a saved network with any activation-kind type parameter — equal to or
different from the one used when saving — succeeds and returns the saved
weights, biases and shapes unchanged, and the encoding itself is identical
for every kind. -/
theorem load_ignores_activation_kind {F : Type} {A : ActKind} (B : ActKind)
    (net : NeuralNet F A) (h : net.WF) :
    from_file B (.present (encodeNet net)) = .ok (net.recast B) ∧
      encodeNet (net.recast B) = encodeNet net := by
  refine ⟨?_, rfl⟩
  simp [from_file, decodeNet_encode B h]

/-- C2 witness: the amended statement at `sampleNet`, loaded as `custom`. -/
theorem load_ignores_activation_kind_witness :
    from_file .custom (.present (encodeNet sampleNet)) =
        .ok (sampleNet.recast .custom) ∧
      encodeNet (sampleNet.recast .custom) = encodeNet sampleNet :=
  load_ignores_activation_kind .custom sampleNet (by decide)

/-- C5: for every well-formed network (as every network the library builds
is), every activation, and every probe input, saving and loading back yields
a network whose predict output on the probe equals the pre-save network's
predict output value-for-value — bincode round-trips every stored `f64`
bit-identically, which value identity in `F` models. -/
theorem save_load_roundtrip_predict {F : Type} [Field F] {A : ActKind}
    (σ : F → F) (net : NeuralNet F A) (h : net.WF) (probe : List F) :
    (decodeNet A (encodeNet net)).map (fun m => (guess σ m probe).2) =
      some ((guess σ net probe).2) := by
  rw [decodeNet_encode A h]
  rfl

/-- C5 witness: the round trip of `sampleNet` probed at `[1]`. -/
theorem save_load_roundtrip_predict_witness :
    (decodeNet .sigmoid (encodeNet sampleNet)).map (fun m => (guess id m [1]).2) =
      some ((guess id sampleNet [1]).2) :=
  save_load_roundtrip_predict id sampleNet (by decide) [1]

/-- C6: truncating the saved encoding of any well-formed network anywhere
strictly before its end makes `from_file` return the decode error — the
decoder is a total function, so no input panics — while a missing file
returns the distinct I/O error. -/
theorem from_file_truncated_is_decode_error {F : Type} {A : ActKind}
    (B : ActKind) (net : NeuralNet F A) (h : net.WF) (k : Nat)
    (hk : k < (encodeNet net).length) :
    from_file B (.present ((encodeNet net).take k)) = .error .decode ∧
      from_file B (FileInput.missing : FileInput F) = .error .io := by
  refine ⟨?_, rfl⟩
  have hdec : decodeNet B ((encodeNet net).take k) = none := by
    cases hd : decodeNetAux B ((encodeNet net).take k) with
    | none => simp [decodeNet, hd]
    | some p =>
      exfalso
      have hext := decodeNetAux_ext hd ((encodeNet net).drop k)
      rw [List.take_append_drop] at hext
      have henc := decodeNetAux_encode B h []
      rw [List.append_nil] at henc
      have hpair := Option.some_inj.mp (hext.symm.trans henc)
      have hnil : p.2 ++ (encodeNet net).drop k = [] :=
        congrArg Prod.snd hpair
      have hdrop : (encodeNet net).drop k = [] := (List.append_eq_nil.mp hnil).2
      have : (encodeNet net).length ≤ k := List.drop_eq_nil_iff.mp hdrop
      omega
  simp [from_file, hdec]

/-- C6 witness: `sampleNet`'s encoding truncated to nothing, and the missing
file, at kind `sigmoid`. -/
theorem from_file_truncated_is_decode_error_witness :
    from_file .sigmoid (.present ((encodeNet sampleNet).take 0)) =
        .error .decode ∧
      from_file .sigmoid (FileInput.missing : FileInput ℚ) = .error .io :=
  from_file_truncated_is_decode_error .sigmoid sampleNet (by decide) 0 (by decide)

/-- `guess` rebuilds only the layer activations: weights are untouched. -/
theorem guess_weights [Field F] (σ : F → F) (net : NeuralNet F A) (x : List F) :
    (guess σ net x).1.weights = net.weights :=
  rfl

/-- `guess` rebuilds only the layer activations: biases are untouched. -/
theorem guess_biases [Field F] (σ : F → F) (net : NeuralNet F A) (x : List F) :
    (guess σ net x).1.biases = net.biases :=
  rfl

/-- `guess` rebuilds only the layer activations: errors are untouched. -/
theorem guess_errors [Field F] (σ : F → F) (net : NeuralNet F A) (x : List F) :
    (guess σ net x).1.errors = net.errors :=
  rfl

/-- The returned prediction of `guess` is `guessOut`. -/
theorem guess_snd [Field F] (σ : F → F) (net : NeuralNet F A) (x : List F) :
    (guess σ net x).2 = guessOut σ net x :=
  rfl

/-- The prediction depends only on the weights and biases. -/
theorem guessOut_congr [Field F] (σ : F → F) {n m : NeuralNet F A}
    (hw : n.weights = m.weights) (hb : n.biases = m.biases) (x : List F) :
    guessOut σ n x = guessOut σ m x := by
  unfold guessOut
  rw [hw, hb]

/-- Invariant of the `test` fold: weights, biases and errors ride through
unchanged, and the accumulated cost is the sum of the per-example costs
taken against the original parameters. -/
theorem test_foldl_spec [Field F] (σ : F → F) (net : NeuralNet F A) :
    ∀ (rows : List (List F × List F)) (n : NeuralNet F A) (acc : F),
      n.weights = net.weights → n.biases = net.biases → n.errors = net.errors →
      (rows.foldl (testStep σ) (n, acc)).1.weights = net.weights ∧
      (rows.foldl (testStep σ) (n, acc)).1.biases = net.biases ∧
      (rows.foldl (testStep σ) (n, acc)).1.errors = net.errors ∧
      (rows.foldl (testStep σ) (n, acc)).2 =
        acc + (rows.map (exampleCost σ net)).sum := by
  intro rows
  induction rows with
  | nil => intro n acc hw hb he; exact ⟨hw, hb, he, by simp⟩
  | cons row rows ih =>
    intro n acc hw hb he
    rw [List.foldl_cons]
    have hstep : testStep σ (n, acc) row =
        ((guess σ n row.1).1, acc + exampleCost σ net row) := by
      unfold testStep exampleCost
      dsimp only
      rw [guess_snd, guessOut_congr σ hw hb]
    rw [hstep]
    obtain ⟨h1, h2, h3, h4⟩ := ih (guess σ n row.1).1 (acc + exampleCost σ net row)
      (by rw [guess_weights, hw]) (by rw [guess_biases, hb])
      (by rw [guess_errors, he])
    exact ⟨h1, h2, h3, by rw [h4, List.map_cons, List.sum_cons]; ring⟩

/-- C4 amended: `test` leaves the weights, biases and error gradients
exactly as they were and returns the mean over all examples of the
per-example mean of `(guess − target)²` across output components — but the
layer activations are overwritten by each `guess` call (spec §4.2), so they
are not restored (see the counterexample). -/
theorem test_preserves_params_and_returns_mean [Field F] (σ : F → F)
    (net : NeuralNet F A) (rows : List (List F × List F)) :
    (test σ net rows).1.weights = net.weights ∧
    (test σ net rows).1.biases = net.biases ∧
    (test σ net rows).1.errors = net.errors ∧
    (test σ net rows).2 = specAvgCost σ net rows := by
  obtain ⟨h1, h2, h3, h4⟩ := test_foldl_spec σ net rows net 0 rfl rfl rfl
  unfold test
  dsimp only
  exact ⟨h1, h2, h3, by rw [h4]; unfold specAvgCost; rw [zero_add]⟩

/-- The `[1, 1]` network of the spec's tiny-network scenario: single weight
`1`, single bias `0`, zero layer activations and error gradient, sigmoid
activation kind. -/
def tinyNet : NeuralNet ℝ .sigmoid :=
  ⟨[colMat [0], colMat [0]], [⟨1, 1, [1]⟩], [⟨1, 1, [0]⟩], [⟨1, 1, [0]⟩]⟩

/-- C4 counterexample: the claim says `test` restores the layer activations.
On `tinyNet` and the one-example dataset `([1], [0])`, `test` returns a
network whose input-layer activation has been overwritten with the example's
input `1`, so the layers differ from their pre-call value. -/
theorem test_overwrites_layer_activations :
    (test Sigmoid tinyNet [([1], [0])]).1.layers ≠ tinyNet.layers := by
  intro hcon
  have h1 : (((test Sigmoid tinyNet [([1], [0])]).1.layers.headD
      (colMat [])).data.headD 0 : ℝ) = 1 := rfl
  rw [hcon] at h1
  norm_num [tinyNet, colMat] at h1

/-- The sigmoid output is strictly positive. -/
theorem sigmoid_pos (x : ℝ) : 0 < Sigmoid x := by
  unfold Sigmoid
  positivity

/-- The sigmoid output is strictly below one. -/
theorem sigmoid_lt_one (x : ℝ) : Sigmoid x < 1 := by
  unfold Sigmoid
  rw [div_lt_one (by positivity)]
  linarith [Real.exp_pos (-x)]

/-- The prediction of `tinyNet` on the one-component input `[x]`. -/
theorem tinyNet_guess (x : ℝ) :
    (guess Sigmoid tinyNet [x]).2.headD 0 = Sigmoid x := by
  simp [guess, tinyNet, forwardActs, applyLayer, DMatrix.mulVec, DMatrix.entry,
    colMat, List.range_succ]

/-- The single weight of `tinyNet` after one predict-then-backpropagate step
on the example `([x], [t])` with learning rate `lr`, in closed form. -/
theorem tinyNet_step_weight (x t lr : ℝ) :
    ((trainExample Sigmoid SigmoidDeriv lr tinyNet ([x], [t])).weights.headD
        (colMat [])).data.headD 0 =
      1 - lr * ((Sigmoid x - t) * (Sigmoid x * (1 - Sigmoid x)) * x) := by
  simp [trainExample, guess, backpropagate, tinyNet, forwardActs, applyLayer,
    DMatrix.mulVec, DMatrix.mulTransVec, DMatrix.entry, backErrs, zipWith3,
    updateMat, outer, colMat, SigmoidDeriv, List.range_succ]

/-- C9 counterexample: the claim covers every single example; on the example
`([0], [0])` with learning rate `1 > 0`, the prediction `Sigmoid 0 = 1/2`
strictly exceeds the target `0`, yet the weight does not strictly decrease:
the gradient is scaled by the input `0`, so the weight stays exactly `1`. -/
theorem backprop_zero_input_weight_unmoved :
    (0 : ℝ) < (guess Sigmoid tinyNet [0]).2.headD 0 ∧
      ((trainExample Sigmoid SigmoidDeriv 1 tinyNet ([0], [0])).weights.headD
          (colMat [])).data.headD 0 = 1 := by
  constructor
  · rw [tinyNet_guess]
    exact sigmoid_pos 0
  · rw [tinyNet_step_weight]
    ring

/-- C9 amended: for the `[1, 1]` sigmoid network with weight `1` and bias
`0`, one predict-then-backpropagate step on a single example whose input
component is strictly positive, with positive learning rate, strictly
decreases the weight when the prediction exceeds the target and strictly
increases it when the prediction is below the target. -/
theorem backprop_moves_weight_with_positive_input (x t lr : ℝ)
    (hx : 0 < x) (hlr : 0 < lr) :
    (t < (guess Sigmoid tinyNet [x]).2.headD 0 →
      ((trainExample Sigmoid SigmoidDeriv lr tinyNet ([x], [t])).weights.headD
          (colMat [])).data.headD 0 < 1) ∧
    ((guess Sigmoid tinyNet [x]).2.headD 0 < t →
      1 < ((trainExample Sigmoid SigmoidDeriv lr tinyNet ([x], [t])).weights.headD
          (colMat [])).data.headD 0) := by
  rw [tinyNet_guess, tinyNet_step_weight]
  have h0 := sigmoid_pos x
  have h1 := sigmoid_lt_one x
  constructor <;> intro h
  · have hprod : 0 < (Sigmoid x - t) * (Sigmoid x * (1 - Sigmoid x)) * x :=
      mul_pos (mul_pos (sub_pos.mpr h) (mul_pos h0 (by linarith))) hx
    nlinarith [mul_pos hlr hprod]
  · have hprod : (Sigmoid x - t) * (Sigmoid x * (1 - Sigmoid x)) * x < 0 :=
      mul_neg_of_neg_of_pos
        (mul_neg_of_neg_of_pos (by linarith) (mul_pos h0 (by linarith))) hx
    nlinarith [mul_neg_of_pos_of_neg hlr hprod]

/-- C9 witness: the amended statement at input `1`, target `0`, learning
rate `1`. -/
theorem backprop_moves_weight_with_positive_input_witness :
    (0 : ℝ) < 1 ∧
      ((0 < (guess Sigmoid tinyNet [1]).2.headD 0 →
        ((trainExample Sigmoid SigmoidDeriv 1 tinyNet ([1], [0])).weights.headD
            (colMat [])).data.headD 0 < 1) ∧
      ((guess Sigmoid tinyNet [1]).2.headD 0 < 0 →
        1 < ((trainExample Sigmoid SigmoidDeriv 1 tinyNet ([1], [0])).weights.headD
            (colMat [])).data.headD 0)) :=
  ⟨by norm_num,
    backprop_moves_weight_with_positive_input 1 0 1 (by norm_num) (by norm_num)⟩

end Scholar
